import Mathlib

/-!
Shallow embedding of the EmbreeTracer renderer core (src/src/Renderer.cpp)
over exact rational arithmetic.

Floats are modelled as rationals with decimal literals taken at face value.
Library math functions that have no exact rational counterpart (sqrt, cos,
sin, tan, pow) are collected in a `MathPort` record of abstract functions;
theorems constrain them only by the properties the source relies on.
The Embree geometry queries (rtcIntersect, rtcOccluded, rtcInterpolate2)
are the external Geometry Query Port and are modelled as a `Scene` record
of abstract functions; rtcIntersect mutates the ray in place, so it is
modelled as a function from rays to rays, and rtcOccluded sets the ray's
geomID to 0 on occlusion and leaves it untouched otherwise.
-/

/-- 3-component vector of rationals, modelling the repository's vec3 of
floats; componentwise operations follow the usual vector-header overloads
the source uses. -/
@[ext]
structure Vec3 where
  x : ℚ
  y : ℚ
  z : ℚ
deriving DecidableEq, Repr

instance : Add Vec3 := ⟨fun a b => ⟨a.x + b.x, a.y + b.y, a.z + b.z⟩⟩

instance : Sub Vec3 := ⟨fun a b => ⟨a.x - b.x, a.y - b.y, a.z - b.z⟩⟩

/-- Componentwise product, the vec3 * vec3 overload. -/
instance : Mul Vec3 := ⟨fun a b => ⟨a.x * b.x, a.y * b.y, a.z * b.z⟩⟩

/-- vec3 * scalar overload. -/
instance : HMul Vec3 ℚ Vec3 := ⟨fun a s => ⟨a.x * s, a.y * s, a.z * s⟩⟩

/-- vec3 / scalar overload. -/
instance : HDiv Vec3 ℚ Vec3 := ⟨fun a s => ⟨a.x / s, a.y / s, a.z / s⟩⟩

def dot3 (a b : Vec3) : ℚ := a.x * b.x + a.y * b.y + a.z * b.z

def cross (a b : Vec3) : Vec3 :=
  ⟨a.y * b.z - a.z * b.y, a.z * b.x - a.x * b.z, a.x * b.y - a.y * b.x⟩

/-- Abstract model of the float math library functions the renderer calls:
fsqrt for std::sqrt, fcos/fsin for cos/sin, ftan for tan, and fpow for
componentwise std::pow with the fixed exponent gamma = 2.2. -/
structure MathPort where
  fsqrt : ℚ → ℚ
  fcos : ℚ → ℚ
  fsin : ℚ → ℚ
  ftan : ℚ → ℚ
  fpow : ℚ → ℚ

/-- Modelled from the spec: normalize(v) from the vector header (not under
src) divides the vector by its length sqrt(dot(v,v)). -/
def normalizeW (M : MathPort) (v : Vec3) : Vec3 := v / M.fsqrt (dot3 v v)

/-- RTC_INVALID_GEOMETRY_ID, the unsigned sentinel ((unsigned)-1). -/
def INVALID_GEOMETRY_ID : ℕ := 4294967295

/-- std::numeric_limits of float max, the largest finite float, exactly. -/
def FLT_MAX : ℚ := 340282346638528859811704183484516925440

/-- The RTCRay record: origin, direction, valid interval, time, mask, and
the mutable hit payload (geomID, primID, barycentric u/v). -/
structure Ray where
  org : Vec3
  dir : Vec3
  tnear : ℚ
  tfar : ℚ
  time : ℚ
  mask : ℤ
  geomID : ℕ
  primID : ℕ
  u : ℚ
  v : ℚ
deriving DecidableEq, Repr

/-- The external Geometry Query Port (Embree): intersect models
rtcIntersect (mutates the ray, writing tfar/geomID/primID/u/v on a hit and
leaving geomID invalid on a miss), occluded models rtcOccluded's boolean
outcome, interpolate models rtcInterpolate2 of the shading normal. -/
structure Scene where
  intersect : Ray → Ray
  occluded : Ray → Bool
  interpolate : ℕ → ℕ → ℚ → ℚ → Vec3

/-- The material record: DiffuseColor, three floats. -/
structure Material where
  DiffuseColor : Vec3

def PI : ℚ := 3.14159265359

def EPSILON : ℚ := 0.00003

/-- The fixed point light position Q = (0, 1.4, 0). -/
def Q : Vec3 := ⟨0, 1.4, 0⟩

def WorldGetBackground (_ray : Ray) : Vec3 := ⟨0, 0, 0⟩

def makeRay (org dir : Vec3) : Ray :=
  { org := org, dir := dir, tnear := 0, tfar := FLT_MAX, time := 0,
    mask := -1, geomID := INVALID_GEOMETRY_ID, primID := INVALID_GEOMETRY_ID,
    u := 0, v := 0 }

/-- intersectScene: runs the nearest-hit query and reports whether the ray
hit; the mutated ray is returned alongside. -/
def intersectScene (S : Scene) (ray : Ray) : Bool × Ray :=
  let r := S.intersect ray
  (r.geomID ≠ INVALID_GEOMETRY_ID, r)

/-- shade: gamma-decode (pow with exponent 2.2, modelled by M.fpow) each
channel of the material's DiffuseColor and divide by PI. -/
def shade (M : MathPort) (Materials : ℕ → Material) (ray : Ray) : Vec3 :=
  let color := (Materials ray.geomID).DiffuseColor
  (⟨M.fpow color.x, M.fpow color.y, M.fpow color.z⟩ : Vec3) / PI

/-- The shadow ray visibility builds: makeRay(o, d) with tnear set to
0.001 and tfar set to 1.0. -/
def shadowRayFor (o d : Vec3) : Ray :=
  { makeRay o d with tnear := 0.001, tfar := 1 }

/-- visibility: occlusion-test the shadow segment; rtcOccluded writes
geomID = 0 on occlusion and leaves it untouched otherwise, and the source
returns shadowRay.geomID ? 1.0f : 0.0f. -/
def visibility (S : Scene) (o d : Vec3) : ℚ :=
  let shadowRay := shadowRayFor o d
  let g : ℕ := if S.occluded shadowRay then 0 else shadowRay.geomID
  if g ≠ 0 then 1 else 0

/-- The hit point ray.org + ray.dir * ray.tfar, as computed componentwise
at lines 133/155 (and reused by the bounce loop's origin update). -/
def hitPoint (ray : Ray) : Vec3 :=
  ⟨ray.org.x + ray.dir.x * ray.tfar,
   ray.org.y + ray.dir.y * ray.tfar,
   ray.org.z + ray.dir.z * ray.tfar⟩

/-- The reference axis of the local frame: fabs(w.x) > 0.1f picks world-up
(0,1,0), otherwise world-right (1,0,0). -/
def sampleAxis (w : Vec3) : Vec3 :=
  if 1/10 < |w.x| then ⟨0, 1, 0⟩ else ⟨1, 0, 0⟩

/-- The cosine-weighted sample direction of one Trace bounce: from the raw
interpolated normal w and the two uniform draws u1, u2 build the local
frame (u, v, w) and return
normalize(u cos(2 pi u1) sqrt(u2) + v sin(2 pi u1) sqrt(u2) + w sqrt(1-u2)). -/
def newDir (M : MathPort) (w : Vec3) (u1 u2 : ℚ) : Vec3 :=
  let rand1 := 2 * PI * u1
  let rand2 := u2
  let rand2s := M.fsqrt rand2
  let axis := sampleAxis w
  let u := normalizeW M (cross axis w)
  let v := cross w u
  normalizeW M
    (u * M.fcos rand1 * rand2s + v * M.fsin rand1 * rand2s +
      w * M.fsqrt (1 - rand2))

/-- The ray update at the end of a Trace bounce (lines 59-73): each origin
coordinate becomes org + tfar * dir + EPSILON, the direction becomes the
sampled direction, tnear is reset to 0, tfar to float max, time to 0, mask
to 0 and the hit payload ids to the invalid sentinel (u and v are left
untouched by the source). -/
def nextRay (ray : Ray) (nd : Vec3) : Ray :=
  { org := ⟨ray.org.x + ray.tfar * ray.dir.x + EPSILON,
           ray.org.y + ray.tfar * ray.dir.y + EPSILON,
           ray.org.z + ray.tfar * ray.dir.z + EPSILON⟩,
    dir := nd, tnear := 0, tfar := FLT_MAX, time := 0, mask := 0,
    geomID := INVALID_GEOMETRY_ID, primID := INVALID_GEOMETRY_ID,
    u := ray.u, v := ray.v }

/-- The uniform stream drawn from the default-seeded engine: rng n is the
n-th call of distr(gen); bounce k consumes draws 2k (for rand1's factor)
and 2k+1 (rand2). -/
def drawsOf (rng : ℕ → ℚ) (k : ℕ) : ℚ × ℚ := (rng (2 * k), rng (2 * k + 1))

/-- The bounce loop of Trace with explicit fuel (8 at the top call) and a
counter k of geometry queries performed so far; returns the resulting
color paired with the total number of queries. A miss banks
color + mask * (0.5,0.5,0.5); a hit banks color += mask, multiplies the
mask by the material color and by dot(newdir, normal), and recurses on
the updated ray. Exhausted fuel returns the accumulated color. -/
def traceLoop (M : MathPort) (S : Scene) (Materials : ℕ → Material)
    (rng : ℕ → ℚ) : ℕ → ℕ → Ray → Vec3 → Vec3 → Vec3 × ℕ
  | 0, k, _, color, _ => (color, k)
  | b + 1, k, ray, color, mask =>
    let r := S.intersect ray
    if r.geomID = INVALID_GEOMETRY_ID then
      (color + mask * (⟨0.5, 0.5, 0.5⟩ : Vec3), k + 1)
    else
      let normal := S.interpolate r.geomID r.primID r.u r.v
      let nd := newDir M normal (drawsOf rng k).1 (drawsOf rng k).2
      let color1 := color + mask
      let mask1 := mask * (Materials r.geomID).DiffuseColor
      let mask2 := mask1 * dot3 nd normal
      traceLoop M S Materials rng b (k + 1) (nextRay r nd) color1 mask2

/-- Trace: the multi-bounce integrator, 8-bounce cap, color starting at
(0,0,0) and mask at (1,1,1). -/
def Trace (M : MathPort) (S : Scene) (Materials : ℕ → Material)
    (rng : ℕ → ℚ) (ray : Ray) : Vec3 :=
  (traceLoop M S Materials rng 8 0 ray ⟨0, 0, 0⟩ ⟨1, 1, 1⟩).1

/-- The number of geometry queries (loop iterations entered) that Trace
performs, read off the same loop. -/
def TraceQueries (M : MathPort) (S : Scene) (Materials : ℕ → Material)
    (rng : ℕ → ℚ) (ray : Ray) : ℕ :=
  (traceLoop M S Materials rng 8 0 ray ⟨0, 0, 0⟩ ⟨1, 1, 1⟩).2

def traceRay (M : MathPort) (S : Scene) (Materials : ℕ → Material)
    (ray : Ray) : Vec3 :=
  let outgoing := WorldGetBackground ray
  let hr := intersectScene S ray
  if hr.1 then
    let r := hr.2
    let P := hitPoint r
    let toLight := Q - P
    let Wi := normalizeW M toLight
    let N0 := S.interpolate r.geomID r.primID r.u r.v
    let N := normalizeW M N0
    let Power : Vec3 := ⟨1, 1, 1⟩
    let distance := M.fsqrt (dot3 toLight toLight)
    let Li := Power / (distance * distance)
    Li * shade M Materials r * max 0 (dot3 N Wi) * visibility S P toLight
  else outgoing

/-- One row of a float[4][4] matrix, four floats. -/
structure Row4 where
  c0 : ℚ
  c1 : ℚ
  c2 : ℚ
  c3 : ℚ
deriving DecidableEq, Repr

/-- A float[4][4] matrix as its four rows. -/
structure Mat4 where
  r0 : Row4
  r1 : Row4
  r2 : Row4
  r3 : Row4
deriving DecidableEq, Repr

/-- The dot(const float row[4], vec3 v) overload of main.cpp lines 68-71:
row[0]*v.x + row[1]*v.y + row[2]*v.z + row[3]*1.0f, treating the vec3 as
a homogeneous point. -/
def dotRow (row : Row4) (v : Vec3) : ℚ :=
  row.c0 * v.x + row.c1 * v.y + row.c2 * v.z + row.c3 * 1

/-- translate of main.cpp lines 73-78: overwrites entries [0][3], [1][3]
and [2][3] of the matrix with the translation components, leaving the
rest of the matrix untouched. -/
def translateM (matrix : Mat4) (translation : Vec3) : Mat4 :=
  { matrix with
    r0 := { matrix.r0 with c3 := translation.x },
    r1 := { matrix.r1 with c3 := translation.y },
    r2 := { matrix.r2 with c3 := translation.z } }

/-- The identity float[4][4] initializer of Renderer.cpp lines 187-192. -/
def identity4 : Mat4 :=
  ⟨⟨1, 0, 0, 0⟩, ⟨0, 1, 0, 0⟩, ⟨0, 0, 1, 0⟩, ⟨0, 0, 0, 1⟩⟩

/-- The half field-of-view angle in radians, (34.5159 / 2) * (PI / 180). -/
def fovAngle : ℚ := 34.5159 / 2 * (PI / 180)

/-- makeCameraRay: pixel center to NDC, fixed vertical fov and aspect
ratio, camera-to-world transform (identity translated by (0, 0.8, 4.5))
applied to the origin and the pixel point through the row-dot overload,
direction as their difference, packaged by makeRay. -/
def makeCameraRay (M : MathPort) (x y width height : ℕ) : Ray :=
  let pixelNDCX := ((x : ℚ) + 0.5) / (width : ℚ)
  let pixelNDCY := ((y : ℚ) + 0.5) / (height : ℚ)
  let fov := M.ftan fovAngle
  let aspectRatio := (width : ℚ) / (height : ℚ)
  let Px := (2 * pixelNDCX - 1) * aspectRatio * fov
  let Py := (1 - 2 * pixelNDCY) * fov
  let rayP : Vec3 := ⟨Px, Py, -1⟩
  let origin : Vec3 := ⟨0, 0, 0⟩
  let CameraToWorld := translateM identity4 ⟨0, 0.8, 4.5⟩
  let rayWorldOrigin : Vec3 :=
    ⟨dotRow CameraToWorld.r0 origin, dotRow CameraToWorld.r1 origin,
     dotRow CameraToWorld.r2 origin⟩
  let rayPWorld : Vec3 :=
    ⟨dotRow CameraToWorld.r0 rayP, dotRow CameraToWorld.r1 rayP,
     dotRow CameraToWorld.r2 rayP⟩
  let rayWorldDir : Vec3 :=
    ⟨rayPWorld.x - rayWorldOrigin.x,
     rayPWorld.y - rayWorldOrigin.y,
     rayPWorld.z - rayWorldOrigin.z⟩
  makeRay rayWorldOrigin rayWorldDir

def pathTraceRay (M : MathPort) (S : Scene) (Materials : ℕ → Material)
    (ray : Ray) : Vec3 :=
  let outgoing := WorldGetBackground ray
  let hr := intersectScene S ray
  if hr.1 then
    let r := hr.2
    let P := hitPoint r
    let toLight := Q - P
    let Wi := normalizeW M toLight
    let N0 := S.interpolate r.geomID r.primID r.u r.v
    let N := normalizeW M N0
    let Power : Vec3 := ⟨1, 1, 1⟩
    let distance := M.fsqrt (dot3 toLight toLight)
    let Li := Power / (distance * distance)
    Li * shade M Materials r * max 0 (dot3 N Wi) * visibility S P toLight
  else outgoing

/-- The interpolated shading normal fetched for a post-intersection ray,
as in the rtcInterpolate2 calls of Trace, traceRay and pathTraceRay. -/
def interpNormal (S : Scene) (r : Ray) : Vec3 :=
  S.interpolate r.geomID r.primID r.u r.v

/-- The sample direction of Trace's first bounce: newDir applied to the
first hit's interpolated normal and the first two uniform draws. -/
def firstDir (M : MathPort) (S : Scene) (rng : ℕ → ℚ) (ray : Ray) : Vec3 :=
  newDir M (interpNormal S (S.intersect ray)) (rng 0) (rng 1)

/-- A concrete math port interpreting every library math function as the
identity; used to instantiate theorems at concrete inputs. -/
def idPort : MathPort := ⟨id, id, id, id, id⟩

/-- A concrete material table: every surface has DiffuseColor (1,1,1). -/
def matsOnes : ℕ → Material := fun _ => ⟨⟨1, 1, 1⟩⟩

/-- A concrete ray from the origin along +z. -/
def ray0 : Ray := makeRay ⟨0, 0, 0⟩ ⟨0, 0, 1⟩

/-- A concrete scene whose nearest-hit query never finds geometry. -/
def missScene : Scene := ⟨id, fun _ => false, fun _ _ _ _ => ⟨0, 0, 1⟩⟩

/-- A concrete scene whose nearest-hit query always hits surface 0 at
distance 1. -/
def hitScene : Scene :=
  ⟨fun r => { r with geomID := 0, primID := 0, tfar := 1 },
   fun _ => false, fun _ _ _ _ => ⟨0, 0, 1⟩⟩

/-- A concrete scene that hits surface 0 at distance 1 only for rays whose
origin has x = 0; the bounce loop's origin update adds EPSILON to x, so
the second bounce misses. -/
def oneHitScene : Scene :=
  ⟨fun r => if r.org.x = 0 then { r with geomID := 0, primID := 0, tfar := 1 } else r,
   fun _ => false, fun _ _ _ _ => ⟨0, 0, 1⟩⟩

/-- A concrete ray sitting so that its hit point (0, 0.4, 0) is directly
below the light Q = (0, 1.4, 0). -/
def rayBelow : Ray := makeRay ⟨0, 2/5, 0⟩ ⟨0, 0, 0⟩

/-- A concrete always-hit scene with upward normals and no occlusion. -/
def openScene : Scene :=
  ⟨fun r => { r with geomID := 0, primID := 0, tfar := 1 },
   fun _ => false, fun _ _ _ _ => ⟨0, 1, 0⟩⟩

/-- A concrete always-hit scene with upward normals whose occlusion query
always reports a blocker. -/
def blockedScene : Scene :=
  ⟨fun r => { r with geomID := 0, primID := 0, tfar := 1 },
   fun _ => true, fun _ _ _ _ => ⟨0, 1, 0⟩⟩

/-- A concrete uniform stream that always draws 0. -/
def rngZero : ℕ → ℚ := fun _ => 0

/-- A concrete post-intersection ray (hit at distance 1 along +z) used to
exhibit the bounce loop's origin update. -/
def rayC4 : Ray :=
  { org := ⟨0, 0, 0⟩, dir := ⟨0, 0, 1⟩, tnear := 0, tfar := 1, time := 0,
    mask := -1, geomID := 0, primID := 0, u := 0, v := 0 }

theorem Vec3.add_x (a b : Vec3) : (a + b).x = a.x + b.x := rfl

theorem Vec3.add_y (a b : Vec3) : (a + b).y = a.y + b.y := rfl

theorem Vec3.add_z (a b : Vec3) : (a + b).z = a.z + b.z := rfl

theorem Vec3.sub_x (a b : Vec3) : (a - b).x = a.x - b.x := rfl

theorem Vec3.sub_y (a b : Vec3) : (a - b).y = a.y - b.y := rfl

theorem Vec3.sub_z (a b : Vec3) : (a - b).z = a.z - b.z := rfl

theorem Vec3.mul_x (a b : Vec3) : (a * b).x = a.x * b.x := rfl

theorem Vec3.mul_y (a b : Vec3) : (a * b).y = a.y * b.y := rfl

theorem Vec3.mul_z (a b : Vec3) : (a * b).z = a.z * b.z := rfl

theorem Vec3.mulS_x (a : Vec3) (s : ℚ) : (a * s).x = a.x * s := rfl

theorem Vec3.mulS_y (a : Vec3) (s : ℚ) : (a * s).y = a.y * s := rfl

theorem Vec3.mulS_z (a : Vec3) (s : ℚ) : (a * s).z = a.z * s := rfl

theorem Vec3.divS_x (a : Vec3) (s : ℚ) : (a / s).x = a.x / s := rfl

theorem Vec3.divS_y (a : Vec3) (s : ℚ) : (a / s).y = a.y / s := rfl

theorem Vec3.divS_z (a : Vec3) (s : ℚ) : (a / s).z = a.z / s := rfl

theorem dot3_cross_right (a b : Vec3) : dot3 (cross a b) b = 0 := by
  simp only [dot3, cross]
  ring

theorem dot3_cross_left (a b : Vec3) : dot3 (cross a b) a = 0 := by
  simp only [dot3, cross]
  ring

theorem dot3_self_nonneg (v : Vec3) : 0 ≤ dot3 v v := by
  simp only [dot3]
  have hx := mul_self_nonneg v.x
  have hy := mul_self_nonneg v.y
  have hz := mul_self_nonneg v.z
  linarith

theorem dot3_divS_left (v : Vec3) (s : ℚ) (w : Vec3) :
    dot3 (v / s) w = dot3 v w / s := by
  simp only [dot3, Vec3.divS_x, Vec3.divS_y, Vec3.divS_z]
  ring

theorem dot3_divS_right (v : Vec3) (s : ℚ) (w : Vec3) :
    dot3 w (v / s) = dot3 w v / s := by
  simp only [dot3, Vec3.divS_x, Vec3.divS_y, Vec3.divS_z]
  ring

theorem dot3_add_left (a b w : Vec3) :
    dot3 (a + b) w = dot3 a w + dot3 b w := by
  simp only [dot3, Vec3.add_x, Vec3.add_y, Vec3.add_z]
  ring

theorem dot3_mulS_left (a : Vec3) (s : ℚ) (w : Vec3) :
    dot3 (a * s) w = dot3 a w * s := by
  simp only [dot3, Vec3.mulS_x, Vec3.mulS_y, Vec3.mulS_z]
  ring

/-- C10: traceRay and pathTraceRay are behaviorally equivalent: for every
math port, scene, material table and ray they return equal radiance; both
are the identical single-hit, single-light, non-recursive evaluation. -/
theorem traceRay_eq_pathTraceRay (M : MathPort) (S : Scene)
    (Materials : ℕ → Material) (ray : Ray) :
    traceRay M S Materials ray = pathTraceRay M S Materials ray := rfl

/-- C9: the Camera Ray Generator is a deterministic pure function of its
inputs: two evaluations with identical (x, y, width, height) under the same
fixed camera pose and math library produce identical ray origin and
direction (identical rays). -/
theorem makeCameraRay_deterministic (M : MathPort)
    (x y width height xb yb wb hb : ℕ)
    (hx : x = xb) (hy : y = yb) (hw : width = wb) (hh : height = hb) :
    makeCameraRay M x y width height = makeCameraRay M xb yb wb hb := by
  subst hx hy hw hh
  rfl

/-- Witness for C9 at the concrete pixel (0,0) of a 4x4 image. -/
theorem makeCameraRay_deterministic_witness :
    makeCameraRay idPort 0 0 4 4 = makeCameraRay idPort 0 0 4 4 :=
  makeCameraRay_deterministic idPort 0 0 4 4 0 0 4 4 rfl rfl rfl rfl

/-- C8: the Shading Model gamma-decodes the stored base color (componentwise
exponent 2.2, a no-op on 1.0) and divides by PI; for base color (1,1,1) the
result is (1/PI, 1/PI, 1/PI) exactly. -/
theorem shade_gamma_one (M : MathPort) (Materials : ℕ → Material) (ray : Ray)
    (hpow : M.fpow 1 = 1) (hmat : Materials ray.geomID = ⟨⟨1, 1, 1⟩⟩) :
    shade M Materials ray = ⟨1 / PI, 1 / PI, 1 / PI⟩ := by
  unfold shade
  rw [hmat]
  show (⟨M.fpow 1, M.fpow 1, M.fpow 1⟩ : Vec3) / PI = _
  rw [hpow]
  rfl

/-- Witness for C8 at an identity gamma table and an all-ones material. -/
theorem shade_gamma_one_witness :
    shade idPort matsOnes ray0 = ⟨1 / PI, 1 / PI, 1 / PI⟩ :=
  shade_gamma_one idPort matsOnes ray0 rfl rfl

/-- Counterexample to C5: for the normal (0,0,1), which is orthogonal to
world-up (not nearly aligned with it), the source picks world-right
(1,0,0) as the reference axis, not world-up as the claim states. -/
theorem sampleAxis_up_counterexample :
    sampleAxis ⟨0, 0, 1⟩ = ⟨1, 0, 0⟩ ∧ dot3 ⟨0, 0, 1⟩ ⟨0, 1, 0⟩ = 0 ∧
      (⟨1, 0, 0⟩ : Vec3) ≠ ⟨0, 1, 0⟩ := by
  refine ⟨by norm_num [sampleAxis], by norm_num [dot3], ?_⟩
  simp [Vec3.mk.injEq]

/-- C5 amended: the reference axis is world-up (0,1,0) exactly when the
normal's x component exceeds 0.1 in absolute value (the normal is away
from the world-right axis), and world-right (1,0,0) otherwise. -/
theorem sampleAxis_cases (w : Vec3) :
    (1/10 < |w.x| → sampleAxis w = ⟨0, 1, 0⟩) ∧
    (|w.x| ≤ 1/10 → sampleAxis w = ⟨1, 0, 0⟩) := by
  refine ⟨fun h => ?_, fun h => ?_⟩
  · simp only [sampleAxis, if_pos h]
  · simp only [sampleAxis, if_neg (not_lt.mpr h)]

/-- Witness for C5 amended at the normals (1,0,0) and (0,0,1). -/
theorem sampleAxis_cases_witness :
    sampleAxis ⟨1, 0, 0⟩ = ⟨0, 1, 0⟩ ∧ sampleAxis ⟨0, 0, 1⟩ = ⟨1, 0, 0⟩ :=
  ⟨(sampleAxis_cases ⟨1, 0, 0⟩).1 (by norm_num),
   (sampleAxis_cases ⟨0, 0, 1⟩).2 (by norm_num)⟩

/-- Counterexample to C4: for a hit at distance 1 along +z with sampled
direction (0,0,1), the next ray's origin is the hit point plus EPSILON in
every coordinate, which differs from the hit point offset along the
outgoing direction by EPSILON. -/
theorem nextRay_offset_counterexample :
    (nextRay rayC4 ⟨0, 0, 1⟩).org ≠
      hitPoint rayC4 + (⟨0, 0, 1⟩ : Vec3) * EPSILON := by
  intro h
  have hx := congrArg Vec3.x h
  simp only [nextRay, hitPoint, rayC4, EPSILON, Vec3.add_x, Vec3.mulS_x] at hx
  norm_num at hx

/-- C4 amended: after a bounce that hits, the next ray's origin is the
previous hit point with EPSILON = 3e-5 added to each coordinate (an offset
along (1,1,1), not along the outgoing direction), its direction is the
sampled direction, tnear is reset to 0 and tfar to the largest finite
float. -/
theorem nextRay_fields (ray : Ray) (nd : Vec3) :
    (nextRay ray nd).org = hitPoint ray + (⟨EPSILON, EPSILON, EPSILON⟩ : Vec3) ∧
    (nextRay ray nd).dir = nd ∧ (nextRay ray nd).tnear = 0 ∧
    (nextRay ray nd).tfar = FLT_MAX := by
  refine ⟨?_, rfl, rfl, rfl⟩
  ext
  · simp only [nextRay, hitPoint, Vec3.add_x]; ring
  · simp only [nextRay, hitPoint, Vec3.add_y]; ring
  · simp only [nextRay, hitPoint, Vec3.add_z]; ring

/-- C3: whenever the geometry query reports no hit, the bounce loop
terminates at that bounce and returns color + mask * (0.5,0.5,0.5),
independent of the fuel left or bounces already consumed; in particular a
first-bounce miss makes Trace return the initial color plus the initial
mask times the background. -/
theorem traceLoop_miss_background (M : MathPort) (S : Scene)
    (Materials : ℕ → Material) (rng : ℕ → ℚ) (b k : ℕ) (ray : Ray)
    (color mask : Vec3)
    (hmiss : (S.intersect ray).geomID = INVALID_GEOMETRY_ID) :
    traceLoop M S Materials rng (b + 1) k ray color mask =
      (color + mask * (⟨0.5, 0.5, 0.5⟩ : Vec3), k + 1) ∧
    Trace M S Materials rng ray =
      (⟨0, 0, 0⟩ : Vec3) + (⟨1, 1, 1⟩ : Vec3) * (⟨0.5, 0.5, 0.5⟩ : Vec3) := by
  constructor
  · simp only [traceLoop]
    rw [if_pos hmiss]
  · show (traceLoop M S Materials rng (7 + 1) 0 ray ⟨0, 0, 0⟩ ⟨1, 1, 1⟩).1 = _
    simp only [traceLoop]
    rw [if_pos hmiss]

/-- Witness for C3 on a concrete scene that never hits. -/
theorem traceLoop_miss_background_witness :
    traceLoop idPort missScene matsOnes rngZero 1 0 ray0 ⟨0, 0, 0⟩ ⟨1, 1, 1⟩ =
      (⟨1/2, 1/2, 1/2⟩, 1) ∧
    Trace idPort missScene matsOnes rngZero ray0 = ⟨1/2, 1/2, 1/2⟩ := by
  have h := traceLoop_miss_background idPort missScene matsOnes rngZero 0 0
    ray0 ⟨0, 0, 0⟩ ⟨1, 1, 1⟩ rfl
  have e : (⟨0, 0, 0⟩ : Vec3) + (⟨1, 1, 1⟩ : Vec3) * (⟨0.5, 0.5, 0.5⟩ : Vec3) =
      ⟨1/2, 1/2, 1/2⟩ := by
    ext <;> norm_num [Vec3.add_x, Vec3.add_y, Vec3.add_z,
      Vec3.mul_x, Vec3.mul_y, Vec3.mul_z]
  exact ⟨h.1.trans (by rw [e]), h.2.trans e⟩

theorem traceLoop_count_le (M : MathPort) (S : Scene)
    (Materials : ℕ → Material) (rng : ℕ → ℚ) :
    ∀ b k ray color mask,
      (traceLoop M S Materials rng b k ray color mask).2 ≤ k + b := by
  intro b
  induction b with
  | zero => intro k ray color mask; simp [traceLoop]
  | succ n ih =>
    intro k ray color mask
    simp only [traceLoop]
    by_cases h : (S.intersect ray).geomID = INVALID_GEOMETRY_ID
    · rw [if_pos h]; omega
    · rw [if_neg h]
      exact le_trans (ih (k + 1) _ _ _) (by omega)

theorem traceLoop_count_allhit (M : MathPort) (S : Scene)
    (Materials : ℕ → Material) (rng : ℕ → ℚ)
    (hall : ∀ r, (S.intersect r).geomID ≠ INVALID_GEOMETRY_ID) :
    ∀ b k ray color mask,
      (traceLoop M S Materials rng b k ray color mask).2 = k + b := by
  intro b
  induction b with
  | zero => intro k ray color mask; simp [traceLoop]
  | succ n ih =>
    intro k ray color mask
    simp only [traceLoop]
    rw [if_neg (hall ray)]
    rw [ih]
    omega

/-- C2: the bounce loop performs at most 8 geometry queries for every
scene, material table and initial ray; when every query reports a hit it
performs exactly 8 (no early exit based on the throughput mask), and on
exhausted fuel the loop returns the accumulated color unchanged. -/
theorem trace_bounce_cap (M : MathPort) (S : Scene)
    (Materials : ℕ → Material) (rng : ℕ → ℚ) (ray : Ray) :
    TraceQueries M S Materials rng ray ≤ 8 ∧
    ((∀ r, (S.intersect r).geomID ≠ INVALID_GEOMETRY_ID) →
      TraceQueries M S Materials rng ray = 8) ∧
    (∀ k r2 color mask,
      traceLoop M S Materials rng 0 k r2 color mask = (color, k)) :=
  ⟨traceLoop_count_le M S Materials rng 8 0 ray ⟨0, 0, 0⟩ ⟨1, 1, 1⟩,
   fun hall =>
     traceLoop_count_allhit M S Materials rng hall 8 0 ray ⟨0, 0, 0⟩ ⟨1, 1, 1⟩,
   fun _ _ _ _ => rfl⟩

/-- Witness for C2 on a concrete scene that always hits: exactly 8
queries. -/
theorem trace_bounce_cap_witness :
    TraceQueries idPort hitScene matsOnes rngZero ray0 = 8 :=
  (trace_bounce_cap idPort hitScene matsOnes rngZero ray0).2.1
    (fun r => by simp [hitScene, INVALID_GEOMETRY_ID])

/-- C6: for all uniform inputs in [0,1) x [0,1), the cosine-weighted
sample direction lies in the hemisphere of the shading normal:
dot(newdir, normal) is nonnegative, for any sqrt model that is
nonnegative on nonnegative arguments and any cos/sin values. -/
theorem newDir_in_hemisphere (M : MathPort) (w : Vec3) (u1 u2 : ℚ)
    (hs : ∀ x : ℚ, 0 ≤ x → 0 ≤ M.fsqrt x)
    (_h1a : 0 ≤ u1) (_h1b : u1 < 1) (_h2a : 0 ≤ u2) (h2b : u2 < 1) :
    0 ≤ dot3 (newDir M w u1 u2) w := by
  simp only [newDir, normalizeW]
  rw [dot3_divS_left]
  refine div_nonneg ?_ (hs _ (dot3_self_nonneg _))
  simp only [dot3_add_left, dot3_mulS_left, dot3_divS_left, dot3_cross_right,
    dot3_cross_left, zero_div, zero_mul, add_zero, zero_add]
  exact mul_nonneg (dot3_self_nonneg w) (hs _ (by linarith))

/-- Witness for C6 at the normal (0,0,1) and draws (0, 1/2) under the
identity sqrt model. -/
theorem newDir_in_hemisphere_witness :
    0 ≤ dot3 (newDir idPort ⟨0, 0, 1⟩ 0 (1/2)) ⟨0, 0, 1⟩ :=
  newDir_in_hemisphere idPort ⟨0, 0, 1⟩ 0 (1/2) (fun _ hx => hx) le_rfl
    (by norm_num) (by norm_num) (by norm_num)

/-- C1: for a camera ray whose first hit has diffuse color C and whose
second bounce misses, Trace returns mask0 + (mask0 * C * cosTheta) *
background with mask0 = (1,1,1), background = (0.5,0.5,0.5) and cosTheta
the dot product of the sampled direction with the interpolated normal:
the mask is banked into the color before being modulated by the material
color and the cosine. -/
theorem trace_first_hit_second_miss (M : MathPort) (S : Scene)
    (Materials : ℕ → Material) (rng : ℕ → ℚ) (ray : Ray)
    (hHit : (S.intersect ray).geomID ≠ INVALID_GEOMETRY_ID)
    (hMiss : (S.intersect (nextRay (S.intersect ray)
        (firstDir M S rng ray))).geomID = INVALID_GEOMETRY_ID) :
    Trace M S Materials rng ray =
      (⟨1, 1, 1⟩ : Vec3) +
        (⟨1, 1, 1⟩ : Vec3) * (Materials (S.intersect ray).geomID).DiffuseColor *
          dot3 (firstDir M S rng ray) (interpNormal S (S.intersect ray)) *
          (⟨0.5, 0.5, 0.5⟩ : Vec3) := by
  have hMiss2 := hMiss
  simp only [firstDir, interpNormal] at hMiss2
  show (traceLoop M S Materials rng (7 + 1) 0 ray ⟨0, 0, 0⟩ ⟨1, 1, 1⟩).1 = _
  simp only [traceLoop, drawsOf, mul_zero, zero_add]
  rw [if_neg hHit]
  show (traceLoop M S Materials rng (6 + 1) (0 + 1) _ _ _).1 = _
  simp only [traceLoop, drawsOf, mul_zero, zero_add]
  rw [if_pos hMiss2]
  simp only [firstDir, interpNormal]
  ext <;>
    simp only [Vec3.add_x, Vec3.add_y, Vec3.add_z, Vec3.mul_x, Vec3.mul_y,
      Vec3.mul_z, Vec3.mulS_x, Vec3.mulS_y, Vec3.mulS_z] <;>
    ring

/-- Witness for C1: a concrete one-hit scene with all-ones material,
normal (0,0,1) and zero draws gives 1 + 1*1*1*0.5 = 3/2 per channel. -/
theorem trace_first_hit_second_miss_witness :
    Trace idPort oneHitScene matsOnes rngZero ray0 = ⟨3/2, 3/2, 3/2⟩ := by
  refine (trace_first_hit_second_miss idPort oneHitScene matsOnes rngZero ray0
    ?_ ?_).trans ?_
  · simp [oneHitScene, ray0, makeRay, INVALID_GEOMETRY_ID]
  · simp only [oneHitScene, nextRay, ray0, makeRay]
    norm_num [EPSILON]
  · ext <;>
      norm_num [firstDir, interpNormal, newDir, normalizeW, sampleAxis,
        cross, dot3, oneHitScene, ray0, makeRay, matsOnes, idPort, rngZero,
        PI, Vec3.add_x, Vec3.add_y, Vec3.add_z, Vec3.mul_x, Vec3.mul_y,
        Vec3.mul_z, Vec3.mulS_x, Vec3.mulS_y, Vec3.mulS_z, Vec3.divS_x,
        Vec3.divS_y, Vec3.divS_z]

theorem visibility_of_unoccluded (S : Scene) (o d : Vec3)
    (h : S.occluded (shadowRayFor o d) = false) : visibility S o d = 1 := by
  simp only [visibility, h, Bool.false_eq_true, if_false]
  simp [shadowRayFor, makeRay, INVALID_GEOMETRY_ID]

theorem visibility_of_occluded (S : Scene) (o d : Vec3)
    (h : S.occluded (shadowRayFor o d) = true) : visibility S o d = 0 := by
  simp only [visibility, h, if_true]
  simp

theorem pathTraceRay_hit_eq (M : MathPort) (S : Scene)
    (Materials : ℕ → Material) (ray : Ray)
    (hHit : (S.intersect ray).geomID ≠ INVALID_GEOMETRY_ID) :
    pathTraceRay M S Materials ray =
      ((⟨1, 1, 1⟩ : Vec3) /
          (M.fsqrt (dot3 (Q - hitPoint (S.intersect ray))
              (Q - hitPoint (S.intersect ray))) *
            M.fsqrt (dot3 (Q - hitPoint (S.intersect ray))
              (Q - hitPoint (S.intersect ray))))) *
        shade M Materials (S.intersect ray) *
        max 0 (dot3 (normalizeW M (interpNormal S (S.intersect ray)))
          (normalizeW M (Q - hitPoint (S.intersect ray)))) *
        visibility S (hitPoint (S.intersect ray))
          (Q - hitPoint (S.intersect ray)) := by
  simp only [pathTraceRay, intersectScene, WorldGetBackground, interpNormal]
  rw [if_pos (by simp [hHit])]

/-- C7: at a hit point facing the light (positive normal-to-light dot
product, positive length models), the direct-lighting estimator returns a
componentwise positive radiance when the shadow query reports no blocker,
and exactly zero when it reports one: the binary visibility factor
multiplies the whole shading product. -/
theorem pathTraceRay_shadow (M : MathPort) (S : Scene)
    (Materials : ℕ → Material) (ray : Ray)
    (hHit : (S.intersect ray).geomID ≠ INVALID_GEOMETRY_ID)
    (hdL : 0 < M.fsqrt (dot3 (Q - hitPoint (S.intersect ray))
        (Q - hitPoint (S.intersect ray))))
    (hdN : 0 < M.fsqrt (dot3 (interpNormal S (S.intersect ray))
        (interpNormal S (S.intersect ray))))
    (hdot : 0 < dot3 (interpNormal S (S.intersect ray))
        (Q - hitPoint (S.intersect ray)))
    (hpx : 0 < M.fpow (Materials (S.intersect ray).geomID).DiffuseColor.x)
    (hpy : 0 < M.fpow (Materials (S.intersect ray).geomID).DiffuseColor.y)
    (hpz : 0 < M.fpow (Materials (S.intersect ray).geomID).DiffuseColor.z) :
    (S.occluded (shadowRayFor (hitPoint (S.intersect ray))
        (Q - hitPoint (S.intersect ray))) = false →
      0 < (pathTraceRay M S Materials ray).x ∧
      0 < (pathTraceRay M S Materials ray).y ∧
      0 < (pathTraceRay M S Materials ray).z) ∧
    (S.occluded (shadowRayFor (hitPoint (S.intersect ray))
        (Q - hitPoint (S.intersect ray))) = true →
      pathTraceRay M S Materials ray = ⟨0, 0, 0⟩) := by
  have hPI : (0:ℚ) < PI := by norm_num [PI]
  have hEq := pathTraceRay_hit_eq M S Materials ray hHit
  have hmaxpos : 0 < dot3 (normalizeW M (interpNormal S (S.intersect ray)))
      (normalizeW M (Q - hitPoint (S.intersect ray))) := by
    simp only [normalizeW, dot3_divS_left, dot3_divS_right]
    exact div_pos (div_pos hdot hdN) hdL
  constructor
  · intro hocc
    rw [hEq, visibility_of_unoccluded S _ _ hocc]
    refine ⟨?_, ?_, ?_⟩ <;>
      simp only [shade, Vec3.mulS_x, Vec3.mulS_y, Vec3.mulS_z, Vec3.mul_x,
        Vec3.mul_y, Vec3.mul_z, Vec3.divS_x, Vec3.divS_y, Vec3.divS_z,
        mul_one]
    · rw [max_eq_right hmaxpos.le]
      exact mul_pos (mul_pos (div_pos one_pos (mul_pos hdL hdL))
        (div_pos hpx hPI)) hmaxpos
    · rw [max_eq_right hmaxpos.le]
      exact mul_pos (mul_pos (div_pos one_pos (mul_pos hdL hdL))
        (div_pos hpy hPI)) hmaxpos
    · rw [max_eq_right hmaxpos.le]
      exact mul_pos (mul_pos (div_pos one_pos (mul_pos hdL hdL))
        (div_pos hpz hPI)) hmaxpos
  · intro hocc
    rw [hEq, visibility_of_occluded S _ _ hocc]
    ext <;> simp [Vec3.mulS_x, Vec3.mulS_y, Vec3.mulS_z]

/-- Witness for C7: a hit point (0,0.4,0) directly below the light with an
upward normal gives positive radiance in the unoccluded scene and zero in
the occluded one. -/
theorem pathTraceRay_shadow_witness :
    (0 < (pathTraceRay idPort openScene matsOnes rayBelow).x ∧
     0 < (pathTraceRay idPort openScene matsOnes rayBelow).y ∧
     0 < (pathTraceRay idPort openScene matsOnes rayBelow).z) ∧
    pathTraceRay idPort blockedScene matsOnes rayBelow = ⟨0, 0, 0⟩ := by
  refine ⟨(pathTraceRay_shadow idPort openScene matsOnes rayBelow
      ?_ ?_ ?_ ?_ ?_ ?_ ?_).1 rfl,
    (pathTraceRay_shadow idPort blockedScene matsOnes rayBelow
      ?_ ?_ ?_ ?_ ?_ ?_ ?_).2 rfl⟩ <;>
    norm_num [openScene, blockedScene, rayBelow, makeRay, hitPoint, Q, dot3,
      idPort, interpNormal, INVALID_GEOMETRY_ID, matsOnes,
      Vec3.sub_x, Vec3.sub_y, Vec3.sub_z]
